import Mathlib

/-!
Verification of the crypto-com-trader exchange gateway client
(`crypto_com_lib.py`, `event_dispatcher.py`) against its specification.

The Python client is shallowly embedded: dictionaries become structures,
the mutable client object becomes an explicit `ClientState` threaded
through the operations, machine arithmetic becomes `Nat` with explicit
`% 2 ^ 32` where the hash functions overflow, and raised exceptions
become explicit error components of the results.
-/

namespace CryptoCom

/-! ### SHA-256 and HMAC-SHA256 (the `hashlib` / `hmac` primitives)

Bytes are naturals below 256, 32-bit words are naturals below `2 ^ 32`;
every word operation reduces modulo `2 ^ 32` exactly where the machine
arithmetic wraps. -/

/-- Reduce to a 32-bit word. -/
def w32 (n : Nat) : Nat := n % 4294967296

/-- Right rotation of a 32-bit word by `k` positions. -/
def rotr (k x : Nat) : Nat := x / 2 ^ k + x % 2 ^ k * 2 ^ (32 - k)

/-- Bitwise complement of a 32-bit word. -/
def wnot (x : Nat) : Nat := x ^^^ 4294967295

def bigSigma0 (x : Nat) : Nat := rotr 2 x ^^^ rotr 13 x ^^^ rotr 22 x

def bigSigma1 (x : Nat) : Nat := rotr 6 x ^^^ rotr 11 x ^^^ rotr 25 x

def smallSigma0 (x : Nat) : Nat := rotr 7 x ^^^ rotr 18 x ^^^ x / 2 ^ 3

def smallSigma1 (x : Nat) : Nat := rotr 17 x ^^^ rotr 19 x ^^^ x / 2 ^ 10

def chf (x y z : Nat) : Nat := x &&& y ^^^ (wnot x &&& z)

def majf (x y z : Nat) : Nat := x &&& y ^^^ (x &&& z) ^^^ (y &&& z)

/-- Floor of the cube root, by binary digit descent from the top bit. -/
def cubeRoot (n : Nat) : Nat :=
  (List.range 64).foldl
    (fun acc i =>
      let c := acc + 2 ^ (63 - i)
      if c * c * c ≤ n then c else acc)
    0

/-- The first sixty-four primes, whose roots seed the hash constants. -/
def smallPrimes : List Nat :=
  [2, 3, 5, 7, 11, 13, 17, 19,
   23, 29, 31, 37, 41, 43, 47, 53,
   59, 61, 67, 71, 73, 79, 83, 89,
   97, 101, 103, 107, 109, 113, 127, 131,
   137, 139, 149, 151, 157, 163, 167, 173,
   179, 181, 191, 193, 197, 199, 211, 223,
   227, 229, 233, 239, 241, 251, 257, 263,
   269, 271, 277, 281, 283, 293, 307, 311]

/-- The 64 SHA-256 round constants: the first 32 fractional-part bits of
the cube roots of the first sixty-four primes (FIPS 180-4). -/
def sha256K : List Nat :=
  smallPrimes.map fun p => cubeRoot (p * 2 ^ 96) % 2 ^ 32

/-- The initial SHA-256 hash value: the first 32 fractional-part bits of
the square roots of the first eight primes (FIPS 180-4). -/
def sha256H0 : List Nat :=
  (smallPrimes.take 8).map fun p => Nat.sqrt (p * 2 ^ 64) % 2 ^ 32

/-- Big-endian byte rendering of `v` on `n` bytes. -/
def toBytesBE (n v : Nat) : List Nat :=
  match n with
  | 0 => []
  | k + 1 => toBytesBE k (v / 256) ++ [v % 256]

/-- Group bytes four at a time into big-endian 32-bit words. -/
def bytesToWords : List Nat → List Nat
  | a :: b :: c :: d :: rest => (((a * 256 + b) * 256 + c) * 256 + d) :: bytesToWords rest
  | _ => []

/-- SHA-256 padding: append a `0x80` byte, zeros, and the 64-bit
big-endian bit length, reaching a multiple of 64 bytes. -/
def sha256Pad (msg : List Nat) : List Nat :=
  let l := msg.length
  msg ++ 0x80 :: List.replicate ((56 + 64 - (l + 1) % 64) % 64) 0 ++ toBytesBE 8 (8 * l)

/-- Split a byte list into successive 64-byte blocks. -/
def sha256Blocks (l : List Nat) : List (List Nat) :=
  if h : l = [] then [] else
    l.take 64 :: sha256Blocks (l.drop 64)
termination_by l.length
decreasing_by
  simp only [List.length_drop]
  have : l.length ≠ 0 := fun hl => h (List.length_eq_zero.mp hl)
  omega

/-- Message-schedule extension step, applied 48 times; the word list is
kept most-recent-first. -/
def extendW : Nat → List Nat → List Nat
  | 0, ws => ws
  | n + 1, ws =>
      extendW n
        (w32 (smallSigma1 (ws.getD 1 0) + ws.getD 6 0 + smallSigma0 (ws.getD 14 0) + ws.getD 15 0)
          :: ws)

/-- One SHA-256 round on the eight working variables. -/
def sha256Round (st : Nat × Nat × Nat × Nat × Nat × Nat × Nat × Nat) (kw : Nat × Nat) :
    Nat × Nat × Nat × Nat × Nat × Nat × Nat × Nat :=
  let (a, b, c, d, e, f, g, h) := st
  let t1 := w32 (h + bigSigma1 e + chf e f g + kw.1 + kw.2)
  let t2 := w32 (bigSigma0 a + majf a b c)
  (w32 (t1 + t2), a, b, c, w32 (d + t1), e, f, g)

/-- SHA-256 compression of one 64-byte block into the running hash. -/
def sha256Compress (hs : List Nat) (block : List Nat) : List Nat :=
  let w := (extendW 48 (bytesToWords block).reverse).reverse
  let init := (hs.getD 0 0, hs.getD 1 0, hs.getD 2 0, hs.getD 3 0,
               hs.getD 4 0, hs.getD 5 0, hs.getD 6 0, hs.getD 7 0)
  let (a, b, c, d, e, f, g, h) := (sha256K.zip w).foldl sha256Round init
  [w32 (hs.getD 0 0 + a), w32 (hs.getD 1 0 + b), w32 (hs.getD 2 0 + c), w32 (hs.getD 3 0 + d),
   w32 (hs.getD 4 0 + e), w32 (hs.getD 5 0 + f), w32 (hs.getD 6 0 + g), w32 (hs.getD 7 0 + h)]

/-- SHA-256 of a byte list, as a 32-byte list. -/
def sha256 (msg : List Nat) : List Nat :=
  ((sha256Blocks (sha256Pad msg)).foldl sha256Compress sha256H0).foldr
    (fun w acc => toBytesBE 4 w ++ acc) []

/-- HMAC-SHA256 with the given key, as by the `hmac` module. -/
def hmacSha256 (key msg : List Nat) : List Nat :=
  let k0 := if 64 < key.length then sha256 key else key
  let k := k0 ++ List.replicate (64 - k0.length) 0
  sha256 ((k.map (· ^^^ 0x5c)) ++ sha256 ((k.map (· ^^^ 0x36)) ++ msg))

/-- One lowercase hexadecimal digit. -/
def hexChar (n : Nat) : Char := if n < 10 then Char.ofNat (48 + n) else Char.ofNat (87 + n)

/-- Lowercase hexadecimal rendering of a byte list, as `hexdigest()`. -/
def hexDigest (bs : List Nat) : String :=
  bs.foldl (fun acc b => acc.push (hexChar (b / 16)) |>.push (hexChar (b % 16))) ""

/-- UTF-8 bytes of one character, as `str.encode()` produces them. -/
def charBytes (c : Char) : List Nat :=
  let n := c.toNat
  if n < 0x80 then [n]
  else if n < 0x800 then [0xc0 + n / 64, 0x80 + n % 64]
  else if n < 0x10000 then [0xe0 + n / 4096, 0x80 + n / 64 % 64, 0x80 + n % 64]
  else [0xf0 + n / 262144, 0x80 + n / 4096 % 64, 0x80 + n / 64 % 64, 0x80 + n % 64]

/-- UTF-8 bytes of a string, as `str.encode()`. -/
def strBytes (s : String) : List Nat := s.data.foldr (fun c acc => charBytes c ++ acc) []

end CryptoCom


namespace CryptoCom

/-! ### Data model

Dictionaries of `crypto_com_lib.py` become structures; absent keys become
`none`. The mutable `CryptoComApiClient` object becomes `ClientState`;
queues become lists with the head at the front (`get_nowait` takes the
head, `put` appends at the tail). Handler callables are external code:
the registries keep only the registered names, and whether an invoked
handler raises enters the corresponding step as an explicit argument. -/

/-- An outbound request dictionary as produced by `build_message` (or the
inline heartbeat response). -/
structure Request where
  id : Nat
  method : String
  nonce : Option Nat := none
  params : Option (List (String × String)) := none
  api_key : Option String := none
  sig : Option String := none
deriving DecidableEq, Repr

/-- The payload under the `result` key of a subscribe acknowledgement;
only the keys the client ever reads are kept. -/
structure ResultPayload where
  subscription : Option String := none
  method : Option String := none
deriving DecidableEq, Repr

/-- A decoded inbound message. -/
structure Msg where
  id : Nat := 0
  method : Option String := none
  subscription : Option String := none
  code : Int := 0
  result : Option ResultPayload := none
deriving DecidableEq, Repr

/-- An item placed on the events-and-responses queue: either a whole
inbound message or the extracted `result` payload of a subscribe
acknowledgement. -/
inductive OutItem where
  | raw (m : Msg)
  | payload (r : ResultPayload)
deriving DecidableEq, Repr

/-- The value of the `subscription` key of a queue item, when present. -/
def OutItem.subscriptionKey : OutItem → Option String
  | .raw m => m.subscription
  | .payload r => r.subscription

/-- The value of the `method` key of a queue item, when present. -/
def OutItem.methodKey : OutItem → Option String
  | .raw m => m.method
  | .payload r => r.method

/-- One entry of `initial_requests_list`; the `method` callable that
issues the request is external, so the entry keeps its `api_method` key
and the `initialized` flag. -/
structure BootEntry where
  api_method : String
  initialized : Bool := false
deriving DecidableEq, Repr

/-- The `str.startswith` test, written on character lists so that it
evaluates inside the kernel. -/
def startsWith (s p : String) : Bool := s.data.take p.data.length == p.data

/-- `CryptoComApiClient.MARKET`. -/
def MARKET : Nat := 0

/-- `CryptoComApiClient.USER`. -/
def USER : Nat := 1

/-- The mutable state of one `CryptoComApiClient` instance. The
`channels_handling_map` and `responses_handling_map` registries keep the
registered keys; `now` is the millisecond clock read by `get_nonce`. -/
structure ClientState where
  api_secret : Option (List Nat) := none
  api_key : Option String := none
  next_id : Nat := 1
  channels : List String := []
  channels_handling_map : List String := []
  responses_handling_map : List String := []
  initial_requests_list : List BootEntry := []
  initializing : Bool := false
  initialized : Bool := false
  requests_queue : List Request := []
  events_and_responses_queue : List OutItem := []
  client_type : Nat := USER
  authenticated : Bool := false
  now : Nat := 0
deriving DecidableEq, Repr

/-! ### Operations of `CryptoComApiClient` -/

/-- The `authenticated` property setter: store the value; becoming true
sets `initializing`; becoming false clears `initialized` and resets every
entry of `initial_requests_list`. Observer callbacks are external code
and have no effect on the client state. -/
def setAuthenticated (value : Bool) (s : ClientState) : ClientState :=
  let s' := { s with authenticated := value }
  if value then { s' with initializing := true }
  else { s' with initialized := false,
                 initial_requests_list :=
                   s'.initial_requests_list.map (fun e => { e with initialized := false }) }

/-- `send`: put the request on `requests_queue`. -/
def send (request : Request) (s : ClientState) : ClientState :=
  { s with requests_queue := s.requests_queue ++ [request] }

/-- Dictionary lookup used for `message["params"][key]`. -/
def assocLookup (ps : List (String × String)) (k : String) : String :=
  ((ps.find? (fun p => p.1 == k)).map Prod.snd).getD ""

/-- The key order `sorted(message["params"])` traverses. -/
def sortedParamKeys (ps : List (String × String)) : List String :=
  (ps.map Prod.fst).insertionSort (· ≤ ·)

/-- The `paramString` accumulated by `sign_message`: each key followed by
its value, keys in sorted order; empty when no `params` key is present. -/
def paramString : Option (List (String × String)) → String
  | none => ""
  | some ps => (sortedParamKeys ps).foldl (fun acc k => acc ++ k ++ assocLookup ps k) ""

/-- `sign_message`: attach the HMAC-SHA256 hex digest of
`method + id + api_key + paramString + nonce` under the `sig` key. The
source is only ever called on messages built with `api_key` and `nonce`
present; the `getD` defaults stand for the `KeyError` that an absent key
would raise. -/
def sign_message (api_secret : List Nat) (message : Request) : Request :=
  let sigPayload := message.method ++ toString message.id ++ message.api_key.getD "" ++
    paramString message.params ++ toString (message.nonce.getD 0)
  { message with sig := some (hexDigest (hmacSha256 api_secret (strBytes sigPayload))) }

/-- `build_message`: allocate the next id and the nonce, attach `params`
when truthy (an empty dict attaches nothing), raise on a private method
without an api key, and sign when the key is present and the method is
`public/auth` or private. The unused `kwargs` parameter is dropped. The
raised exception is returned as `Except.error` together with the state at
the raise point (`next_id` has already advanced). -/
def build_message (method : String) (params : Option (List (String × String)))
    (s : ClientState) : Except String Request × ClientState :=
  let message : Request := { id := s.next_id, method := method, nonce := some s.now }
  let message := match params with
    | some ps => if ps.isEmpty then message else { message with params := some ps }
    | none => message
  (if s.client_type == USER && s.api_key.isNone then
    if !(startsWith method "public") then
      .error "ConfigurationError: calling USER API private method without providing api_key"
    else .ok message
  else if s.client_type == USER && s.api_key.isSome &&
      (method == "public/auth" || startsWith method "private") then
    .ok (sign_message (s.api_secret.getD []) { message with api_key := s.api_key })
  else .ok message,
  { s with next_id := s.next_id + 1 })

/-- `authenticate`: build and enqueue the `public/auth` request; a raised
`build_message` exception propagates in the second component. -/
def authenticate (s : ClientState) : ClientState × Option String :=
  match build_message "public/auth" none s with
  | (.ok r, s') => (send r s', none)
  | (.error e, s') => (s', some e)

/-- `subscribe`: build and enqueue the subscribe request for the
configured channels. The channel list value is opaque to every claim, so
its rendering uses `toString`. -/
def subscribe (s : ClientState) : ClientState × Option String :=
  match build_message "subscribe" (some [("channels", toString s.channels)]) s with
  | (.ok r, s') => (send r s', none)
  | (.error e, s') => (s', some e)

/-- The heartbeat response dictionary built inline by `parse_message`. -/
def heartbeatResponse (dataId : Nat) : Request :=
  { id := dataId, method := "public/respond-heartbeat" }

/-- Result of `parse_message`: the state after the call, the returned
value (`none` for Python `None`), and the raised exception if any. -/
structure ParseResult where
  state : ClientState
  out : Option OutItem
  error : Option String
deriving DecidableEq, Repr

/-- `parse_message`: answer heartbeats inline, unwrap subscribe
acknowledgements, flip `authenticated` on auth acknowledgements, and hand
everything else back to the caller unchanged. -/
def parse_message (data : Msg) (s : ClientState) : ParseResult :=
  match data.method with
  | none => ⟨s, none, some "KeyError: method"⟩
  | some m =>
    if m == "public/heartbeat" then
      ⟨send (heartbeatResponse data.id) s, none, none⟩
    else if m == "subscribe" then
      match data.result with
      | some res => ⟨s, some (.payload res), none⟩
      | none =>
        if data.code == 0 then ⟨s, none, none⟩
        else ⟨setAuthenticated false s, none, some "Error when subscribing"⟩
    else if m == "public/auth" then
      if data.code == 0 then
        let s := setAuthenticated true s
        if !s.channels.isEmpty then
          match subscribe s with
          | (s', none) => ⟨s', none, none⟩
          | (s', some e) => ⟨s', none, some e⟩
        else ⟨s, none, none⟩
      else ⟨s, none, some "Auth error"⟩
    else ⟨s, some (.raw data), none⟩

end CryptoCom

namespace CryptoCom

/-! ### The four cooperative loops, one iteration at a time

Each loop body is embedded as one step function. What the outside world
does during the iteration (whether the transport send succeeds, what the
receive returns, whether an external handler raises) enters as an
explicit argument; what the iteration does to the outside world (messages
transmitted, bootstrap actions invoked, seconds slept) is returned next
to the new state. -/

/-- Outcome of `await self.websocket.send(...)`: success, one of the
caught transport errors, or any other exception. -/
inductive SendOutcome where
  | ok
  | transportError
  | otherError (e : String)
deriving DecidableEq, Repr

/-- The methods `handle_requests` sends even while unauthenticated. -/
def exemptMethods : List String := ["public/respond-heartbeat", "public/auth", "subscribe"]

/-- Result of one `handle_requests` iteration: the new state, the
requests transmitted on the websocket, and the seconds slept. -/
structure RequestsStepResult where
  state : ClientState
  sent : List Request
  backoff : Nat
deriving DecidableEq, Repr

/-- One iteration of the `handle_requests` loop: skip without a live
socket, dequeue one request, requeue it while unauthenticated unless its
method is exempt, otherwise transmit; a raised send exception requeues
the request and sleeps one second. -/
def handle_requests_step (wsOpen : Bool) (outcome : SendOutcome) (s : ClientState) :
    RequestsStepResult :=
  if !wsOpen then ⟨s, [], 0⟩
  else
    match s.requests_queue with
    | [] => ⟨s, [], 0⟩
    | request :: rest =>
      if !s.authenticated && !(exemptMethods.contains request.method) then
        ⟨{ s with requests_queue := rest ++ [request] }, [], 0⟩
      else
        match outcome with
        | .ok => ⟨{ s with requests_queue := rest }, [request], 0⟩
        | .transportError => ⟨{ s with requests_queue := rest ++ [request] }, [], 1⟩
        | .otherError _ => ⟨{ s with requests_queue := rest ++ [request] }, [], 1⟩

/-- Mark every entry of `initial_requests_list` whose `api_method`
equals `m` as initialized. -/
def markInitialized (m : String) (l : List BootEntry) : List BootEntry :=
  l.map (fun e => if e.api_method == m then { e with initialized := true } else e)

/-- One iteration of the client-side `dispatch` loop on a dequeued item.
`handlerRaises` tells whether the invoked external handler raises; a
missing registry key is the same caught `KeyError`. On any exception for
a response, a tracked `api_method` match turns `initializing` back on;
on success the matching entries are marked initialized. The `error`
result is the `KeyError` escaping the except-branch itself when the item
has no `method` key and the entry list is walked. -/
def dispatch_step (item : OutItem) (handlerRaises : Bool) (s : ClientState) :
    Except String ClientState :=
  match item.subscriptionKey with
  | some ch =>
    if !(s.channels_handling_map.contains ch) || handlerRaises then .ok s
    else
      .ok (match item.methodKey with
        | some m => { s with initial_requests_list := markInitialized m s.initial_requests_list }
        | none => s)
  | none =>
    match item.methodKey with
    | none => if s.initial_requests_list.isEmpty then .ok s else .error "KeyError: method"
    | some m =>
      if !(s.responses_handling_map.contains m) || handlerRaises then
        .ok { s with initializing :=
          if s.initial_requests_list.any (fun e => e.api_method == m) then true
          else s.initializing }
      else
        .ok { s with initial_requests_list := markInitialized m s.initial_requests_list }

/-- The issue pass of `send_initial_requests`: invoke `method()` for
every entry not yet initialized, in list order, recording the
`api_method` of each invoked entry; `failAt k` makes the `k`-th
invocation raise, ending the pass. Returns the invoked entries and
whether the pass raised. -/
def issueLoop : List BootEntry → Option Nat → List String × Bool
  | [], _ => ([], false)
  | e :: rest, failAt =>
    if e.initialized then issueLoop rest failAt
    else
      match failAt with
      | some 0 => ([e.api_method], true)
      | some (n + 1) => let (is, r) := issueLoop rest (some n); (e.api_method :: is, r)
      | none => let (is, r) := issueLoop rest none; (e.api_method :: is, r)

/-- Result of one `send_initial_requests` iteration. -/
structure BootStepResult where
  state : ClientState
  issued : List String
  backoff : Nat
deriving DecidableEq, Repr

/-- One iteration of the `send_initial_requests` loop: while
`initializing`, issue every not-yet-initialized entry and clear the flag
unless the pass raised (then sleep one second); otherwise, while not yet
`initialized`, recompute it as the conjunction of the entry flags. -/
def send_initial_requests_step (failAt : Option Nat) (s : ClientState) : BootStepResult :=
  if s.initializing then
    let (issued, raised) := issueLoop s.initial_requests_list failAt
    if raised then ⟨s, issued, 1⟩
    else ⟨{ s with initializing := false }, issued, 0⟩
  else if !s.initialized then
    ⟨{ s with initialized := s.initial_requests_list.all (fun e => e.initialized) }, [], 0⟩
  else ⟨s, [], 0⟩

/-- `websocket_connect`, reduced to its state effects: a failed connect
is caught and logged inside the call; on success, a user client holding
an api key enqueues the auth request, otherwise configured channels are
subscribed. A `build_message` exception propagates in the second
component. -/
def websocket_connect (connectOk : Bool) (s : ClientState) : ClientState × Option String :=
  if !connectOk then (s, none)
  else if s.client_type == USER && s.api_key.isSome then authenticate s
  else if !s.channels.isEmpty then subscribe s
  else (s, none)

/-- What `await self.websocket.recv()` does this iteration: return a
decoded message, raise a transport error, or — the call carries no
timeout — keep waiting because nothing arrives. -/
inductive RecvOutcome where
  | msg (m : Msg)
  | connError
  | silence
deriving DecidableEq, Repr

/-- Result of one `handle_events_and_responses` iteration. `reconnected`
records whether `websocket_connect` was invoked; `blocked` records that
the iteration is still inside `recv` and never completes. -/
structure EventsStepResult where
  state : ClientState
  reconnected : Bool
  enqueued : Option OutItem
  backoff : Nat
  blocked : Bool
deriving DecidableEq, Repr

/-- One iteration of the `handle_events_and_responses` loop: with no
open socket, drop `authenticated` and reconnect; then receive, parse,
and enqueue a non-`None` parse result; caught exceptions sleep one
second. -/
def handle_events_step (wsOpen connectOk : Bool) (recv : RecvOutcome) (s : ClientState) :
    EventsStepResult :=
  let st := if !wsOpen then
      let p := websocket_connect connectOk (setAuthenticated false s)
      (p.1, true, p.2)
    else (s, false, none)
  match st with
  | (s, reconn, some _) => ⟨s, reconn, none, 1, false⟩
  | (s, reconn, none) =>
    match recv with
    | .silence => ⟨s, reconn, none, 0, true⟩
    | .connError => ⟨s, reconn, none, 1, false⟩
    | .msg m =>
      let pr := parse_message m s
      match pr.error with
      | some _ => ⟨pr.state, reconn, none, 1, false⟩
      | none =>
        match pr.out with
        | some item =>
          ⟨{ pr.state with
              events_and_responses_queue := pr.state.events_and_responses_queue ++ [item] },
            reconn, some item, 0, false⟩
        | none => ⟨pr.state, reconn, none, 0, false⟩

/-- Every state-changing operation of the client, for stating whole-client
invariants. -/
inductive Op where
  | setAuth (v : Bool)
  | parse (m : Msg)
  | dispatchItem (item : OutItem) (handlerRaises : Bool)
  | bootStep (failAt : Option Nat)
  | reqStep (wsOpen : Bool) (outcome : SendOutcome)
  | enqueue (r : Request)
  | buildSend (method : String) (params : Option (List (String × String)))
  | eventsStep (wsOpen connectOk : Bool) (recv : RecvOutcome)
deriving DecidableEq, Repr

/-- The state after running one operation. An error escaping
`dispatch_step` kills that task without further state change. -/
def applyOp (op : Op) (s : ClientState) : ClientState :=
  match op with
  | .setAuth v => setAuthenticated v s
  | .parse m => (parse_message m s).state
  | .dispatchItem item r =>
    match dispatch_step item r s with
    | .ok s' => s'
    | .error _ => s
  | .bootStep f => (send_initial_requests_step f s).state
  | .reqStep w o => (handle_requests_step w o s).state
  | .enqueue r => send r s
  | .buildSend m p =>
    match build_message m p s with
    | (.ok r, s') => send r s'
    | (.error _, s') => s'
  | .eventsStep w c r => (handle_events_step w c r s).state

/-! ### The caller-side `EventDispatcher` (`event_dispatcher.py`)

Handlers are caller code returning a value or raising; registration
overwrites by key, modelled by consing onto an association list looked
up front-first. -/

/-- The caller-owned registry of channel and response handlers. -/
structure EventDispatcher (α : Type) where
  channel_handling_map : List (String × (OutItem → Except String α)) := []
  response_handling_map : List (String × (OutItem → Except String α)) := []

/-- Front-first association-list lookup, as a Python dict read. -/
def findHandler (m : List (String × (OutItem → Except String α))) (k : String) :
    Option (OutItem → Except String α) :=
  (m.find? (fun p => p.1 == k)).map Prod.snd

/-- `register_channel_handling_method`. -/
def EventDispatcher.register_channel_handling_method (d : EventDispatcher α)
    (subscription_channel : String) (handling_method : OutItem → Except String α) :
    EventDispatcher α :=
  { d with channel_handling_map := (subscription_channel, handling_method) :: d.channel_handling_map }

/-- `register_response_handling_method`. -/
def EventDispatcher.register_response_handling_method (d : EventDispatcher α)
    (response_method : String) (handling_method : OutItem → Except String α) :
    EventDispatcher α :=
  { d with response_handling_map := (response_method, handling_method) :: d.response_handling_map }

/-- What a `dispatch` call does: return the handler value, re-raise the
`KeyError` of an unregistered route, re-raise the handler exception, or
re-raise the `KeyError` of a missing `method` key. -/
inductive DispatchResult (α : Type) where
  | ok (a : α)
  | unregisteredRoute (key : String)
  | handlerError (e : String)
  | missingMethod
deriving DecidableEq, Repr

/-- `EventDispatcher.dispatch`: route by the `subscription` key when
present, else by the `method` key; every exception is re-raised to the
caller. -/
def EventDispatcher.dispatch (d : EventDispatcher α) (event : OutItem) : DispatchResult α :=
  match event.subscriptionKey with
  | some ch =>
    match findHandler d.channel_handling_map ch with
    | some h =>
      match h event with
      | .ok a => .ok a
      | .error e => .handlerError e
    | none => .unregisteredRoute ch
  | none =>
    match event.methodKey with
    | some m =>
      match findHandler d.response_handling_map m with
      | some h =>
        match h event with
        | .ok a => .ok a
        | .error e => .handlerError e
      | none => .unregisteredRoute m
    | none => .missingMethod

end CryptoCom

namespace CryptoCom

/-! ### Iterated outbound processing and sample inputs -/

/-- `n` consecutive `handle_requests` iterations on a live socket whose
sends all succeed, collecting the transmitted requests in order. -/
def runSendOk : Nat → ClientState → ClientState × List Request
  | 0, s => (s, [])
  | n + 1, s =>
    let o := handle_requests_step true .ok s
    let p := runSendOk n o.state
    (p.1, o.sent ++ p.2)

/-- A private request, for concrete evaluations. -/
def sampleReq : Request := { id := 5, method := "private/create-order" }

/-- An unauthenticated client holding one private request. -/
def sampleGateState : ClientState := { requests_queue := [sampleReq] }

/-- An authenticated client holding one private request. -/
def sampleAuthState : ClientState := { authenticated := true, requests_queue := [sampleReq] }

/-- Two bootstrap entries, one still uninitialized. -/
def sampleEntries : List BootEntry :=
  [{ api_method := "private/get-account-summary" },
   { api_method := "private/get-open-orders", initialized := true }]

/-- A client in the bootstrap-issuing phase. -/
def sampleBootState : ClientState :=
  { initializing := true, initial_requests_list := sampleEntries,
    responses_handling_map := ["private/get-account-summary", "private/get-open-orders"] }

/-- An inbound heartbeat message. -/
def sampleHeartbeat : Msg := { id := 42, method := some "public/heartbeat" }

/-- A response correlated to the uninitialized bootstrap entry. -/
def sampleResponse : OutItem := .raw { id := 3, method := some "private/get-account-summary" }

/-- A freshly constructed user client with no api key. -/
def sampleNoKeyState : ClientState := {}

/-- A market-data client, for the inbound-loop evaluations. -/
def sampleMarketState : ClientState := { client_type := MARKET }

/-- A sample signing input with two params given in non-alphabetical
insertion order. -/
def sampleParams : List (String × String) := [("type", "LIMIT"), ("price", "1.5")]

/-- The same params in the other insertion order. -/
def sampleParamsSwapped : List (String × String) := [("price", "1.5"), ("type", "LIMIT")]

/-- An event dispatcher over `Nat` handler results with one channel and
one response handler registered. -/
def sampleDispatcher : EventDispatcher Nat :=
  (EventDispatcher.register_response_handling_method
    (EventDispatcher.register_channel_handling_method {} "ticker.BTC_USDT" (fun _ => .ok 7))
    "private/get-account-summary" (fun _ => .ok 9))

end CryptoCom

namespace CryptoCom

/-- Relation between two client states: every initialized bootstrap
entry of the second was already initialized, under the same
`api_method`, in the first — i.e. the step from the first to the second
created no newly initialized entry. -/
def NoNewInit (s t : ClientState) : Prop :=
  ∀ e ∈ t.initial_requests_list, e.initialized = true →
    ∃ e₀, e₀ ∈ s.initial_requests_list ∧ e₀.api_method = e.api_method ∧ e₀.initialized = true

/-! ### Shared lemmas -/

/-- Membership gives a true `contains` check. -/
theorem contains_of_mem {l : List String} {a : String} (h : a ∈ l) : l.contains a = true :=
  List.elem_eq_true_of_mem h

/-- A true `contains` check gives membership. -/
theorem mem_of_contains {l : List String} {a : String} (h : l.contains a = true) : a ∈ l :=
  List.mem_of_elem_eq_true h

/-- An outbound step never changes the `authenticated` flag. -/
theorem handle_requests_step_authenticated (wsOpen : Bool) (o : SendOutcome) (s : ClientState) :
    (handle_requests_step wsOpen o s).state.authenticated = s.authenticated := by
  unfold handle_requests_step
  split
  · rfl
  · split
    · rfl
    · split
      · rfl
      · cases o <;> rfl

/-- On an authenticated client, one successful iteration transmits the
head of the queue. -/
theorem handle_requests_step_sends (s : ClientState) (r : Request) (rest : List Request)
    (ha : s.authenticated = true) (hq : s.requests_queue = r :: rest) :
    handle_requests_step true .ok s = ⟨{ s with requests_queue := rest }, [r], 0⟩ := by
  simp [handle_requests_step, hq, ha]

/-- While authenticated with all sends succeeding, as many iterations as
there are queued requests transmit exactly the queue, in order. -/
theorem runSendOk_drains : ∀ (q : List Request) (s : ClientState),
    s.authenticated = true → s.requests_queue = q →
    (runSendOk q.length s).2 = q ∧ (runSendOk q.length s).1.requests_queue = [] := by
  intro q
  induction q with
  | nil =>
    intro s _ hq
    exact ⟨rfl, hq⟩
  | cons r rest ih =>
    intro s ha hq
    have hstep := handle_requests_step_sends s r rest ha hq
    have ih' := ih { s with requests_queue := rest } ha rfl
    simp only [List.length_cons, runSendOk, hstep]
    exact ⟨by rw [ih'.1, List.singleton_append], ih'.2⟩

/-! ### Claim theorems -/

/-- Claim C5: an inbound heartbeat message never reaches the
caller-facing events-and-responses queue, and exactly one
heartbeat-acknowledgement carrying the same id is enqueued on the
outbound path. -/
theorem claim_C5 (s : ClientState) (m : Msg) (connectOk : Bool)
    (hm : m.method = some "public/heartbeat") :
    (parse_message m s).out = none ∧
    (parse_message m s).state.events_and_responses_queue = s.events_and_responses_queue ∧
    (parse_message m s).state.requests_queue =
      s.requests_queue ++ [{ id := m.id, method := "public/respond-heartbeat" }] ∧
    (handle_events_step true connectOk (.msg m) s).enqueued = none ∧
    (handle_events_step true connectOk (.msg m) s).state.events_and_responses_queue =
      s.events_and_responses_queue := by
  simp [parse_message, hm, send, heartbeatResponse, handle_events_step]

/-- Witness for C5 at a concrete heartbeat message. -/
theorem claim_C5_witness :
    sampleHeartbeat.method = some "public/heartbeat" ∧
    (parse_message sampleHeartbeat sampleMarketState).out = none ∧
    (parse_message sampleHeartbeat sampleMarketState).state.requests_queue =
      sampleMarketState.requests_queue ++
        [{ id := sampleHeartbeat.id, method := "public/respond-heartbeat" }] :=
  ⟨rfl, (claim_C5 sampleMarketState sampleHeartbeat true rfl).1,
    (claim_C5 sampleMarketState sampleHeartbeat true rfl).2.2.1⟩

/-- Claim C10: handling a heartbeat builds the acknowledgement directly
with the inbound id and no nonce, api key or signature, and its only
state effect is appending that acknowledgement to the outbound queue:
the id counter, the authenticated flag and the bootstrap entries are
untouched. -/
theorem claim_C10 (s : ClientState) (m : Msg) (hm : m.method = some "public/heartbeat") :
    (parse_message m s).state =
      { s with requests_queue := s.requests_queue ++ [heartbeatResponse m.id] } ∧
    heartbeatResponse m.id =
      { id := m.id, method := "public/respond-heartbeat", nonce := none, params := none,
        api_key := none, sig := none } ∧
    (parse_message m s).state.next_id = s.next_id ∧
    (parse_message m s).state.authenticated = s.authenticated ∧
    (parse_message m s).state.initializing = s.initializing ∧
    (parse_message m s).state.initial_requests_list = s.initial_requests_list := by
  refine ⟨?_, rfl, ?_, ?_, ?_, ?_⟩ <;> simp [parse_message, hm, send]

/-- Witness for C10 at a concrete heartbeat message. -/
theorem claim_C10_witness :
    sampleHeartbeat.method = some "public/heartbeat" ∧
    (parse_message sampleHeartbeat sampleBootState).state =
      { sampleBootState with
          requests_queue := sampleBootState.requests_queue ++ [heartbeatResponse 42] } :=
  ⟨rfl, (claim_C10 sampleBootState sampleHeartbeat rfl).1⟩

/-- Claim C6: a transport failure while sending the dequeued request
puts that same request back at the tail of the queue — its multiplicity
in the queue is unchanged, so it is neither duplicated nor dropped —
nothing is transmitted, and the processor sleeps one second. -/
theorem claim_C6 (s : ClientState) (r : Request) (rest : List Request)
    (hq : s.requests_queue = r :: rest)
    (hsend : s.authenticated = true ∨ r.method ∈ exemptMethods) :
    (handle_requests_step true .transportError s).state.requests_queue = rest ++ [r] ∧
    (handle_requests_step true .transportError s).sent = [] ∧
    (handle_requests_step true .transportError s).backoff = 1 ∧
    (handle_requests_step true .transportError s).state.requests_queue.count r =
      s.requests_queue.count r := by
  have hgate : ¬(s.authenticated = false ∧ r.method ∉ exemptMethods) := by
    rcases hsend with ha | he
    · rintro ⟨hf, _⟩
      rw [ha] at hf
      exact Bool.noConfusion hf
    · rintro ⟨_, hn⟩
      exact hn he
  refine ⟨?_, ?_, ?_, ?_⟩ <;>
    simp [handle_requests_step, hq, hgate, List.count_append, List.count_cons]

/-- Witness for C6: the failed private request returns to the tail of
the queue of an authenticated client exactly once. -/
theorem claim_C6_witness :
    sampleAuthState.requests_queue = sampleReq :: [] ∧
    (handle_requests_step true .transportError sampleAuthState).state.requests_queue =
      [] ++ [sampleReq] ∧
    (handle_requests_step true .transportError sampleAuthState).backoff = 1 :=
  ⟨rfl, (claim_C6 sampleAuthState sampleReq [] rfl (Or.inl rfl)).1,
    (claim_C6 sampleAuthState sampleReq [] rfl (Or.inl rfl)).2.2.1⟩

/-- Claim C1: while unauthenticated, an outbound iteration transmits
only exempt methods; a dequeued non-exempt request is re-enqueued at the
tail with nothing sent; and once authenticated, iterating with
successful sends delivers the whole queue in order, emptying it. -/
theorem claim_C1 :
    (∀ (wsOpen : Bool) (o : SendOutcome) (s : ClientState) (r : Request),
      s.authenticated = false → r ∈ (handle_requests_step wsOpen o s).sent →
      r.method ∈ exemptMethods) ∧
    (∀ (o : SendOutcome) (s : ClientState) (r : Request) (rest : List Request),
      s.authenticated = false → s.requests_queue = r :: rest →
      r.method ∉ exemptMethods →
      (handle_requests_step true o s).state.requests_queue = rest ++ [r] ∧
      (handle_requests_step true o s).sent = []) ∧
    (∀ s : ClientState, s.authenticated = true →
      (runSendOk s.requests_queue.length s).2 = s.requests_queue ∧
      (runSendOk s.requests_queue.length s).1.requests_queue = []) := by
  refine ⟨?_, ?_, fun s ha => runSendOk_drains s.requests_queue s ha rfl⟩
  · intro wsOpen o s r ha hr
    cases wsOpen with
    | false => simp [handle_requests_step] at hr
    | true =>
      rcases hq : s.requests_queue with _ | ⟨head, tail⟩
      · simp [handle_requests_step, hq] at hr
      · by_cases hm : head.method ∈ exemptMethods
        · cases o with
          | ok =>
            simp [handle_requests_step, hq, ha, hm] at hr
            subst hr
            exact hm
          | transportError => simp [handle_requests_step, hq, ha, hm] at hr
          | otherError e => simp [handle_requests_step, hq, ha, hm] at hr
        · simp [handle_requests_step, hq, ha, hm] at hr
  · intro o s r rest ha hq hne
    constructor <;> simp [handle_requests_step, hq, ha, hne]

/-- Witness for C1: one unauthenticated iteration re-enqueues the
private request and sends nothing; with authentication on, one
successful run delivers it. -/
theorem claim_C1_witness :
    sampleGateState.authenticated = false ∧
    sampleReq.method ∉ exemptMethods ∧
    (handle_requests_step true .ok sampleGateState).state.requests_queue = [] ++ [sampleReq] ∧
    (handle_requests_step true .ok sampleGateState).sent = [] ∧
    sampleAuthState.authenticated = true ∧
    (runSendOk sampleAuthState.requests_queue.length sampleAuthState).2 =
      sampleAuthState.requests_queue :=
  ⟨rfl, by decide,
    (claim_C1.2.1 .ok sampleGateState sampleReq [] rfl rfl (by decide)).1,
    (claim_C1.2.1 .ok sampleGateState sampleReq [] rfl rfl (by decide)).2,
    rfl, (claim_C1.2.2 sampleAuthState rfl).1⟩

end CryptoCom

namespace CryptoCom

/-- Claim C2, counterexample: on a user client with no api key
configured, building the `public/auth` message succeeds — the method
name starts with `public`, so the missing-key check does not fire and no
`ConfigurationError` is raised. -/
theorem claim_C2_counterexample :
    (build_message "public/auth" none sampleNoKeyState).1 =
      .ok { id := 1, method := "public/auth", nonce := some 0 } := by
  rfl

/-- Claim C2, amended: on a user client with no api key, building a
message whose method does not start with `public` fails with the
configuration error before anything reaches the queue (only the id
counter has advanced); building `public/auth` without a key succeeds. -/
theorem claim_C2_amended :
    (∀ (s : ClientState) (method : String) (params : Option (List (String × String))),
      s.client_type = USER → s.api_key = none → startsWith method "public" = false →
      (build_message method params s).1 =
        .error "ConfigurationError: calling USER API private method without providing api_key" ∧
      applyOp (.buildSend method params) s = { s with next_id := s.next_id + 1 }) ∧
    (∀ (s : ClientState) (params : Option (List (String × String))),
      s.client_type = USER → s.api_key = none →
      ∃ r : Request, (build_message "public/auth" params s).1 = .ok r) := by
  have hauth : startsWith "public/auth" "public" = true := by decide
  constructor
  · intro s method params ht hk hpub
    constructor
    · simp [build_message, ht, hk, hpub]
    · simp [applyOp, build_message, ht, hk, hpub]
  · intro s params ht hk
    rcases params with _ | ps
    · exact ⟨{ id := s.next_id, method := "public/auth", nonce := some s.now },
        by simp [build_message, ht, hk, hauth]⟩
    · by_cases hemp : ps.isEmpty
      · exact ⟨{ id := s.next_id, method := "public/auth", nonce := some s.now },
          by simp [build_message, ht, hk, hauth, hemp]⟩
      · refine ⟨{ id := s.next_id, method := "public/auth", nonce := some s.now, params := some ps }, ?_⟩
        simp [build_message, ht, hk, hauth, hemp]

/-- Witness for the amended C2 on a concrete private method. -/
theorem claim_C2_amended_witness :
    sampleNoKeyState.client_type = USER ∧
    sampleNoKeyState.api_key = none ∧
    startsWith "private/create-order" "public" = false ∧
    (build_message "private/create-order" none sampleNoKeyState).1 =
      .error "ConfigurationError: calling USER API private method without providing api_key" ∧
    (∃ r : Request, (build_message "public/auth" none sampleNoKeyState).1 = .ok r) :=
  ⟨rfl, rfl, by decide,
    (claim_C2_amended.1 sampleNoKeyState "private/create-order" none rfl rfl (by decide)).1,
    claim_C2_amended.2 sampleNoKeyState none rfl rfl⟩

/-- An inbound iteration invokes `websocket_connect` exactly when it
finds no open socket. -/
theorem handle_events_step_reconnected (wsOpen connectOk : Bool) (recv : RecvOutcome)
    (s : ClientState) : (handle_events_step wsOpen connectOk recv s).reconnected = !wsOpen := by
  cases wsOpen with
  | false =>
    rcases hw : websocket_connect connectOk (setAuthenticated false s) with ⟨s', e⟩
    cases e with
    | none =>
      cases recv with
      | silence => simp [handle_events_step, hw]
      | connError => simp [handle_events_step, hw]
      | msg m =>
        rcases he : (parse_message m s').error with _ | err
        · rcases ho : (parse_message m s').out with _ | item <;>
            simp [handle_events_step, hw, he, ho]
        · simp [handle_events_step, hw, he]
    | some err => simp [handle_events_step, hw]
  | true =>
    cases recv with
    | silence => simp [handle_events_step]
    | connError => simp [handle_events_step]
    | msg m =>
      rcases he : (parse_message m s).error with _ | err
      · rcases ho : (parse_message m s).out with _ | item <;>
          simp [handle_events_step, he, ho]
      · simp [handle_events_step, he]

/-- Claim C7, counterexample: with a live socket and nothing arriving,
the inbound iteration stays blocked inside `recv` — no reconnect is
forced and the state does not change, because the receive call carries
no timeout. -/
theorem claim_C7_counterexample :
    (handle_events_step true true .silence sampleMarketState).reconnected = false ∧
    (handle_events_step true true .silence sampleMarketState).blocked = true ∧
    (handle_events_step true true .silence sampleMarketState).state = sampleMarketState := by
  refine ⟨?_, ?_, ?_⟩ <;> simp [handle_events_step]

/-- Claim C7, amended: the receive carries no timeout, so an iteration
that gets no message blocks indefinitely with no state change; a
reconnect is forced exactly when an iteration starts with no open
socket, and a transport error raised by the receive only sleeps one
second before the next iteration. -/
theorem claim_C7_amended (s : ClientState) (connectOk : Bool) (recv : RecvOutcome) :
    (handle_events_step true connectOk recv s).reconnected = false ∧
    (handle_events_step false connectOk recv s).reconnected = true ∧
    (handle_events_step true connectOk .silence s).blocked = true ∧
    (handle_events_step true connectOk .silence s).state = s ∧
    (handle_events_step true connectOk .connError s).backoff = 1 ∧
    (handle_events_step true connectOk .connError s).blocked = false := by
  refine ⟨handle_events_step_reconnected true connectOk recv s,
    handle_events_step_reconnected false connectOk recv s, ?_, ?_, ?_, ?_⟩ <;>
    simp [handle_events_step]

/-- Claim C8: dispatch routes a message carrying a subscription key to
the registered channel handler, any other message to the handler
registered for its method, and yields the unregistered-route error —
rather than crashing — when no handler is registered for the route. -/
theorem claim_C8 {α : Type} (d : EventDispatcher α) (event : OutItem) :
    (∀ ch, event.subscriptionKey = some ch →
      (∀ hnd, findHandler d.channel_handling_map ch = some hnd →
        EventDispatcher.dispatch d event =
          (match hnd event with
           | .ok a => DispatchResult.ok a
           | .error e => DispatchResult.handlerError e)) ∧
      (findHandler d.channel_handling_map ch = none →
        EventDispatcher.dispatch d event = .unregisteredRoute ch)) ∧
    (∀ m, event.subscriptionKey = none → event.methodKey = some m →
      (∀ hnd, findHandler d.response_handling_map m = some hnd →
        EventDispatcher.dispatch d event =
          (match hnd event with
           | .ok a => DispatchResult.ok a
           | .error e => DispatchResult.handlerError e)) ∧
      (findHandler d.response_handling_map m = none →
        EventDispatcher.dispatch d event = .unregisteredRoute m)) := by
  constructor
  · intro ch hch
    constructor
    · intro hnd hh
      simp [EventDispatcher.dispatch, hch, hh]
    · intro hh
      simp [EventDispatcher.dispatch, hch, hh]
  · intro m hsub hm
    constructor
    · intro hnd hh
      simp [EventDispatcher.dispatch, hsub, hm, hh]
    · intro hh
      simp [EventDispatcher.dispatch, hsub, hm, hh]

/-- Witness for C8: the registered channel handler answers, and an
unregistered channel yields the unregistered-route error value. -/
theorem claim_C8_witness :
    (OutItem.payload { subscription := some "ticker.BTC_USDT" }).subscriptionKey =
      some "ticker.BTC_USDT" ∧
    EventDispatcher.dispatch sampleDispatcher
      (.payload { subscription := some "ticker.BTC_USDT" }) = .ok 7 ∧
    EventDispatcher.dispatch sampleDispatcher
      (.payload { subscription := some "ticker.CRO_USDT" }) =
      .unregisteredRoute "ticker.CRO_USDT" :=
  ⟨rfl,
   ((claim_C8 sampleDispatcher (.payload { subscription := some "ticker.BTC_USDT" })).1
      "ticker.BTC_USDT" rfl).1 (fun _ => .ok 7) rfl,
   ((claim_C8 sampleDispatcher (.payload { subscription := some "ticker.CRO_USDT" })).1
      "ticker.CRO_USDT" rfl).2 rfl⟩

end CryptoCom

namespace CryptoCom

/-! ### Signing: parameter order and determinism -/

/-- In a pair list with pairwise-distinct keys, the first association
found for a key is invariant under reordering of the list. -/
theorem find_eq_of_perm_of_nodup_keys (ps₁ ps₂ : List (String × String))
    (hp : ps₁.Perm ps₂) (hnd : (ps₁.map Prod.fst).Nodup) (k : String) :
    ps₁.find? (fun p => p.1 == k) = ps₂.find? (fun p => p.1 == k) := by
  have hinj := List.inj_on_of_nodup_map hnd
  cases h₁ : ps₁.find? (fun p => p.1 == k) with
  | none =>
    have hnone := List.find?_eq_none.mp h₁
    symm
    exact List.find?_eq_none.mpr fun x hx => hnone x (hp.symm.subset hx)
  | some x =>
    have hx₁ : x ∈ ps₁ := List.mem_of_find?_eq_some h₁
    have px := List.find?_some h₁
    have hsome : (ps₂.find? (fun p => p.1 == k)).isSome := by
      rw [List.find?_isSome]
      exact ⟨x, hp.subset hx₁, px⟩
    cases h₂ : ps₂.find? (fun p => p.1 == k) with
    | none =>
      rw [h₂] at hsome
      simp at hsome
    | some y =>
      have hy₁ : y ∈ ps₁ := hp.symm.subset (List.mem_of_find?_eq_some h₂)
      have py := List.find?_some h₂
      have hxy : x = y := hinj hx₁ hy₁ (by rw [eq_of_beq px, eq_of_beq py])
      rw [hxy]

/-- The sorted key sequence depends only on the multiset of pairs. -/
theorem sortedParamKeys_sorted (ps : List (String × String)) :
    List.Sorted (· ≤ ·) (sortedParamKeys ps) := by
  unfold sortedParamKeys
  exact List.sorted_insertionSort _ _

theorem sortedParamKeys_eq_of_perm (ps₁ ps₂ : List (String × String)) (hp : ps₁.Perm ps₂) :
    sortedParamKeys ps₁ = sortedParamKeys ps₂ := by
  have hperm : (sortedParamKeys ps₁).Perm (sortedParamKeys ps₂) := by
    unfold sortedParamKeys
    exact (List.perm_insertionSort _ _).trans
      ((hp.map Prod.fst).trans (List.perm_insertionSort _ _).symm)
  exact List.eq_of_perm_of_sorted hperm (sortedParamKeys_sorted ps₁) (sortedParamKeys_sorted ps₂)

/-- With pairwise-distinct keys, `paramString` is independent of the
insertion order of the pairs. -/
theorem paramString_eq_of_perm (ps₁ ps₂ : List (String × String)) (hp : ps₁.Perm ps₂)
    (hnd : (ps₁.map Prod.fst).Nodup) :
    paramString (some ps₁) = paramString (some ps₂) := by
  have hfun : (fun (acc : String) k => acc ++ k ++ assocLookup ps₁ k) =
      fun acc k => acc ++ k ++ assocLookup ps₂ k := by
    funext acc k
    unfold assocLookup
    rw [find_eq_of_perm_of_nodup_keys ps₁ ps₂ hp hnd k]
  simp only [paramString]
  rw [sortedParamKeys_eq_of_perm ps₁ ps₂ hp, hfun]

/-- Claim C3: the attached signature is the HMAC-SHA256 hex digest, under
the secret, of `method + id + api_key + paramString + nonce`; the key
sequence entering `paramString` is alphabetically sorted and independent
of insertion order; and signing is deterministic. -/
theorem claim_C3 (secret : List Nat) (msg : Request) (key : String) (nonce : Nat) :
    ((sign_message secret { msg with api_key := some key, nonce := some nonce }).sig =
      some (hexDigest (hmacSha256 secret (strBytes
        (msg.method ++ toString msg.id ++ key ++ paramString msg.params ++ toString nonce))))) ∧
    (∀ ps : List (String × String), List.Sorted (· ≤ ·) (sortedParamKeys ps)) ∧
    (∀ ps₁ ps₂ : List (String × String), ps₁.Perm ps₂ → (ps₁.map Prod.fst).Nodup →
      (sign_message secret { msg with params := some ps₁ }).sig =
        (sign_message secret { msg with params := some ps₂ }).sig) ∧
    (∀ (k₁ k₂ : List Nat) (m₁ m₂ : Request), k₁ = k₂ → m₁ = m₂ →
      sign_message k₁ m₁ = sign_message k₂ m₂) := by
  refine ⟨?_, fun ps => sortedParamKeys_sorted ps, ?_, ?_⟩
  · simp [sign_message]
  · intro ps₁ ps₂ hp hnd
    simp only [sign_message]
    rw [paramString_eq_of_perm ps₁ ps₂ hp hnd]
  · intro k₁ k₂ m₁ m₂ h1 h2
    rw [h1, h2]

/-- Witness for C3: two insertion orders of the same two params produce
the same signature, and the key order is alphabetically sorted. -/
theorem claim_C3_witness :
    sampleParams.Perm sampleParamsSwapped ∧
    (sampleParams.map Prod.fst).Nodup ∧
    List.Sorted (· ≤ ·) (sortedParamKeys sampleParams) ∧
    (sign_message [1, 2, 3] { sampleReq with params := some sampleParams }).sig =
      (sign_message [1, 2, 3] { sampleReq with params := some sampleParamsSwapped }).sig :=
  ⟨by decide, by decide, (claim_C3 [1, 2, 3] sampleReq "k" 0).2.1 sampleParams,
    (claim_C3 [1, 2, 3] sampleReq "k" 0).2.2.1 sampleParams sampleParamsSwapped
      (by decide) (by decide)⟩

end CryptoCom

namespace CryptoCom

/-! ### Bootstrap-entry bookkeeping -/

/-- Entries reset by an authentication drop are all uninitialized. -/
theorem initialized_mem_reset {l : List BootEntry} {e : BootEntry}
    (h : e ∈ l.map fun e => { e with initialized := false }) : e.initialized = false := by
  rcases List.mem_map.mp h with ⟨e₀, _, he⟩
  rw [← he]

/-- An initialized entry of `markInitialized m l` was either already
initialized in `l` or is tracked under the method `m`. -/
theorem mem_markInitialized {l : List BootEntry} {e : BootEntry} {m : String}
    (h : e ∈ markInitialized m l) (hi : e.initialized = true) :
    (∃ e₀, e₀ ∈ l ∧ e₀.api_method = e.api_method ∧ e₀.initialized = true) ∨
      e.api_method = m := by
  rcases List.mem_map.mp h with ⟨e₀, h₀, he⟩
  by_cases hm : (e₀.api_method == m) = true
  · right
    rw [if_pos hm] at he
    rw [← he]
    exact eq_of_beq hm
  · left
    rw [if_neg hm] at he
    exact ⟨e₀, h₀, by rw [he], by rw [he]; exact hi⟩

theorem noNewInit_refl (s : ClientState) : NoNewInit s s := fun e he hi => ⟨e, he, rfl, hi⟩

theorem noNewInit_of_entries_eq {s t : ClientState}
    (h : t.initial_requests_list = s.initial_requests_list) : NoNewInit s t := by
  intro e he hi
  rw [h] at he
  exact ⟨e, he, rfl, hi⟩

theorem noNewInit_trans {s₁ s₂ s₃ : ClientState} (h₁ : NoNewInit s₁ s₂) (h₂ : NoNewInit s₂ s₃) :
    NoNewInit s₁ s₃ := by
  intro e he hi
  rcases h₂ e he hi with ⟨e₂, he₂, ha₂, hi₂⟩
  rcases h₁ e₂ he₂ hi₂ with ⟨e₁, he₁, ha₁, hi₁⟩
  exact ⟨e₁, he₁, ha₁.trans ha₂, hi₁⟩

theorem noNewInit_setAuthenticated (v : Bool) (s : ClientState) :
    NoNewInit s (setAuthenticated v s) := by
  cases v with
  | true => exact noNewInit_of_entries_eq rfl
  | false =>
    intro e he hi
    have hf : e.initialized = false := initialized_mem_reset he
    rw [hf] at hi
    exact Bool.noConfusion hi

/-- `build_message` touches only the id counter. -/
theorem build_message_state (mth : String) (p : Option (List (String × String)))
    (s : ClientState) : (build_message mth p s).2 = { s with next_id := s.next_id + 1 } := rfl

theorem subscribe_entries (s : ClientState) :
    (subscribe s).1.initial_requests_list = s.initial_requests_list := by
  unfold subscribe
  cases hb : build_message "subscribe" (some [("channels", toString s.channels)]) s with
  | mk res s' =>
    have h2 : s' = { s with next_id := s.next_id + 1 } := by
      have h := congrArg Prod.snd hb
      rw [build_message_state] at h
      exact h.symm
    cases res with
    | ok r => simp [h2, send]
    | error err => simp [h2]

theorem authenticate_entries (s : ClientState) :
    (authenticate s).1.initial_requests_list = s.initial_requests_list := by
  unfold authenticate
  cases hb : build_message "public/auth" none s with
  | mk res s' =>
    have h2 : s' = { s with next_id := s.next_id + 1 } := by
      have h := congrArg Prod.snd hb
      rw [build_message_state] at h
      exact h.symm
    cases res with
    | ok r => simp [h2, send]
    | error err => simp [h2]

theorem websocket_connect_entries (c : Bool) (s : ClientState) :
    (websocket_connect c s).1.initial_requests_list = s.initial_requests_list := by
  unfold websocket_connect
  split
  · rfl
  · split
    · exact authenticate_entries s
    · split
      · exact subscribe_entries s
      · rfl

theorem handle_requests_step_entries (w : Bool) (o : SendOutcome) (s : ClientState) :
    (handle_requests_step w o s).state.initial_requests_list = s.initial_requests_list := by
  unfold handle_requests_step
  repeat' split
  all_goals rfl

theorem send_initial_requests_step_entries (f : Option Nat) (s : ClientState) :
    (send_initial_requests_step f s).state.initial_requests_list = s.initial_requests_list := by
  unfold send_initial_requests_step
  repeat' split
  all_goals rfl

theorem applyOp_buildSend_entries (mth : String) (p : Option (List (String × String)))
    (s : ClientState) :
    (applyOp (.buildSend mth p) s).initial_requests_list = s.initial_requests_list := by
  simp only [applyOp]
  cases hb : build_message mth p s with
  | mk res s' =>
    have h2 : s' = { s with next_id := s.next_id + 1 } := by
      have h := congrArg Prod.snd hb
      rw [build_message_state] at h
      exact h.symm
    cases res with
    | ok r => simp [h2, send]
    | error err => simp [h2]

theorem noNewInit_parse (m : Msg) (s : ClientState) : NoNewInit s (parse_message m s).state := by
  rcases hm : m.method with _ | name
  · simp only [parse_message, hm]
    exact noNewInit_refl s
  · simp only [parse_message, hm]
    by_cases h1 : (name == "public/heartbeat") = true
    · rw [if_pos h1]
      exact noNewInit_of_entries_eq rfl
    · rw [if_neg h1]
      by_cases h2 : (name == "subscribe") = true
      · rw [if_pos h2]
        cases hres : m.result with
        | some res => exact noNewInit_refl s
        | none =>
          by_cases h3 : (m.code == 0) = true
          · rw [if_pos h3]
            exact noNewInit_refl s
          · rw [if_neg h3]
            exact noNewInit_setAuthenticated false s
      · rw [if_neg h2]
        by_cases h4 : (name == "public/auth") = true
        · rw [if_pos h4]
          by_cases h5 : (m.code == 0) = true
          · rw [if_pos h5]
            by_cases h6 : (!(setAuthenticated true s).channels.isEmpty) = true
            · rw [if_pos h6]
              cases hsub : subscribe (setAuthenticated true s) with
              | mk s' e =>
                have hent : s'.initial_requests_list =
                    (setAuthenticated true s).initial_requests_list := by
                  have h := subscribe_entries (setAuthenticated true s)
                  rw [hsub] at h
                  exact h
                cases e with
                | none =>
                  exact noNewInit_trans (noNewInit_setAuthenticated true s)
                    (noNewInit_of_entries_eq hent)
                | some err =>
                  exact noNewInit_trans (noNewInit_setAuthenticated true s)
                    (noNewInit_of_entries_eq hent)
            · rw [if_neg h6]
              exact noNewInit_setAuthenticated true s
          · rw [if_neg h5]
            exact noNewInit_refl s
        · rw [if_neg h4]
          exact noNewInit_refl s

theorem noNewInit_events (wsOpen connectOk : Bool) (recv : RecvOutcome) (s : ClientState) :
    NoNewInit s (handle_events_step wsOpen connectOk recv s).state := by
  cases wsOpen with
  | true =>
    cases recv with
    | silence => exact noNewInit_refl s
    | connError => exact noNewInit_refl s
    | msg m =>
      have hp := noNewInit_parse m s
      rcases he : (parse_message m s).error with _ | err
      · rcases ho : (parse_message m s).out with _ | item
        · have hstate : (handle_events_step true connectOk (.msg m) s).state =
              (parse_message m s).state := by
            simp [handle_events_step, he, ho]
          rw [hstate]
          exact hp
        · have hstate : (handle_events_step true connectOk (.msg m) s).state =
              { (parse_message m s).state with events_and_responses_queue :=
                  (parse_message m s).state.events_and_responses_queue ++ [item] } := by
            simp [handle_events_step, he, ho]
          rw [hstate]
          exact noNewInit_trans hp (noNewInit_of_entries_eq rfl)
      · have hstate : (handle_events_step true connectOk (.msg m) s).state =
            (parse_message m s).state := by
          simp [handle_events_step, he]
        rw [hstate]
        exact hp
  | false =>
    cases hw : websocket_connect connectOk (setAuthenticated false s) with
    | mk s' e =>
      have hbase : NoNewInit s s' := by
        apply noNewInit_trans (noNewInit_setAuthenticated false s)
        apply noNewInit_of_entries_eq
        have h := websocket_connect_entries connectOk (setAuthenticated false s)
        rw [hw] at h
        exact h
      cases e with
      | some err =>
        have hstate : (handle_events_step false connectOk recv s).state = s' := by
          simp [handle_events_step, hw]
        rw [hstate]
        exact hbase
      | none =>
        cases recv with
        | silence =>
          have hstate : (handle_events_step false connectOk .silence s).state = s' := by
            simp [handle_events_step, hw]
          rw [hstate]
          exact hbase
        | connError =>
          have hstate : (handle_events_step false connectOk .connError s).state = s' := by
            simp [handle_events_step, hw]
          rw [hstate]
          exact hbase
        | msg m =>
          have hp := noNewInit_parse m s'
          rcases he : (parse_message m s').error with _ | err
          · rcases ho : (parse_message m s').out with _ | item
            · have hstate : (handle_events_step false connectOk (.msg m) s).state =
                  (parse_message m s').state := by
                simp [handle_events_step, hw, he, ho]
              rw [hstate]
              exact noNewInit_trans hbase hp
            · have hstate : (handle_events_step false connectOk (.msg m) s).state =
                  { (parse_message m s').state with events_and_responses_queue :=
                      (parse_message m s').state.events_and_responses_queue ++ [item] } := by
                simp [handle_events_step, hw, he, ho]
              rw [hstate]
              exact noNewInit_trans hbase (noNewInit_trans hp (noNewInit_of_entries_eq rfl))
          · have hstate : (handle_events_step false connectOk (.msg m) s).state =
                (parse_message m s').state := by
              simp [handle_events_step, hw, he]
            rw [hstate]
            exact noNewInit_trans hbase hp

end CryptoCom

namespace CryptoCom

/-- The three possible outcomes of a dispatch iteration: an exception
path that keeps the entry list unchanged, a success path that marks the
entries matching the item, or the escaping `KeyError`. -/
theorem dispatch_step_cases (item : OutItem) (raises : Bool) (s : ClientState) :
    (∃ s', dispatch_step item raises s = .ok s' ∧
       s'.initial_requests_list = s.initial_requests_list) ∨
    (∃ m2, item.methodKey = some m2 ∧
       dispatch_step item raises s =
         .ok { s with initial_requests_list := markInitialized m2 s.initial_requests_list }) ∨
    dispatch_step item raises s = .error "KeyError: method" := by
  unfold dispatch_step
  cases hsub : item.subscriptionKey with
  | some ch =>
    dsimp only
    by_cases hcond : (!(s.channels_handling_map.contains ch) || raises) = true
    · rw [if_pos hcond]
      exact Or.inl ⟨s, rfl, rfl⟩
    · rw [if_neg hcond]
      cases hmk : item.methodKey with
      | some m2 =>
        dsimp only
        exact Or.inr (Or.inl ⟨m2, rfl, rfl⟩)
      | none =>
        dsimp only
        exact Or.inl ⟨s, rfl, rfl⟩
  | none =>
    dsimp only
    cases hmk : item.methodKey with
    | none =>
      dsimp only
      by_cases hemp : s.initial_requests_list.isEmpty = true
      · rw [if_pos hemp]
        exact Or.inl ⟨s, rfl, rfl⟩
      · rw [if_neg hemp]
        exact Or.inr (Or.inr rfl)
    | some m2 =>
      dsimp only
      by_cases hcond : (!(s.responses_handling_map.contains m2) || raises) = true
      · rw [if_pos hcond]
        refine Or.inl ⟨_, rfl, rfl⟩
      · rw [if_neg hcond]
        exact Or.inr (Or.inl ⟨m2, rfl, rfl⟩)

/-- An entry that is initialized after a dispatch iteration was already
initialized before, or the dispatched item carried that entry's
`api_method` under its `method` key. -/
theorem dispatch_flip (item : OutItem) (raises : Bool) (s : ClientState) (e : BootEntry)
    (he : e ∈ (applyOp (.dispatchItem item raises) s).initial_requests_list)
    (hi : e.initialized = true) :
    (∃ e₀, e₀ ∈ s.initial_requests_list ∧ e₀.api_method = e.api_method ∧
      e₀.initialized = true) ∨ item.methodKey = some e.api_method := by
  rcases dispatch_step_cases item raises s with ⟨s', hd, hent⟩ | ⟨m2, hmk, hd⟩ | hd
  · have hred : (applyOp (.dispatchItem item raises) s).initial_requests_list =
        s.initial_requests_list := by
      simp only [applyOp, hd]
      exact hent
    rw [hred] at he
    exact Or.inl ⟨e, he, rfl, hi⟩
  · have hred : applyOp (.dispatchItem item raises) s =
        { s with initial_requests_list := markInitialized m2 s.initial_requests_list } := by
      simp only [applyOp, hd]
    rw [hred] at he
    rcases mem_markInitialized he hi with h | h
    · exact Or.inl h
    · exact Or.inr (by rw [hmk, h])
  · have hred : applyOp (.dispatchItem item raises) s = s := by
      simp only [applyOp, hd]
    rw [hred] at he
    exact Or.inl ⟨e, he, rfl, hi⟩

end CryptoCom

namespace CryptoCom

/-- A non-raising issue pass invokes exactly the not-yet-initialized
entries, in list order. -/
theorem issueLoop_none (l : List BootEntry) :
    issueLoop l none =
      ((l.filter fun e => !e.initialized).map fun e => e.api_method, false) := by
  induction l with
  | nil => rfl
  | cons e rest ih =>
    by_cases hi : e.initialized = true
    · simp [issueLoop, hi, ih]
    · simp [issueLoop, hi, ih]

/-- While `initializing`, one bootstrap iteration issues every
not-yet-initialized entry, leaves `initialized` untouched, and clears
the `initializing` flag. -/
theorem send_initial_requests_step_issuing (s : ClientState) (hinit : s.initializing = true) :
    (send_initial_requests_step none s).issued =
      ((s.initial_requests_list.filter fun e => !e.initialized).map fun e => e.api_method) ∧
    (send_initial_requests_step none s).state.initialized = s.initialized ∧
    (send_initial_requests_step none s).state.initializing = false := by
  refine ⟨?_, ?_, ?_⟩ <;> simp [send_initial_requests_step, hinit, issueLoop_none]

/-- Claim C4: dropping authentication immediately clears the gateway
`initialized` flag and resets every bootstrap entry; under every client
operation an entry becomes initialized only when a dispatched item
carries a matching `method`; and once authentication returns, the
bootstrap iteration issues every not-yet-initialized entry while the
gateway `initialized` flag stays as it was. -/
theorem claim_C4 :
    (∀ s : ClientState, (setAuthenticated false s).initialized = false ∧
      (setAuthenticated false s).authenticated = false ∧
      ∀ e ∈ (setAuthenticated false s).initial_requests_list, e.initialized = false) ∧
    (∀ (op : Op) (s : ClientState) (e : BootEntry),
      e ∈ (applyOp op s).initial_requests_list → e.initialized = true →
      (∃ e₀, e₀ ∈ s.initial_requests_list ∧ e₀.api_method = e.api_method ∧
        e₀.initialized = true) ∨
      (∃ item raises, op = .dispatchItem item raises ∧
        OutItem.methodKey item = some e.api_method)) ∧
    (∀ s : ClientState, (setAuthenticated true s).initializing = true) ∧
    (∀ s : ClientState, s.initializing = true →
      (send_initial_requests_step none s).issued =
        ((s.initial_requests_list.filter fun e => !e.initialized).map fun e => e.api_method) ∧
      (send_initial_requests_step none s).state.initialized = s.initialized) := by
  refine ⟨?_, ?_, fun s => rfl, ?_⟩
  · intro s
    exact ⟨rfl, rfl, fun e he => initialized_mem_reset he⟩
  · intro op s e he hi
    cases op with
    | setAuth v => exact Or.inl (noNewInit_setAuthenticated v s e he hi)
    | parse m => exact Or.inl (noNewInit_parse m s e he hi)
    | dispatchItem item raises =>
      rcases dispatch_flip item raises s e he hi with h | h
      · exact Or.inl h
      · exact Or.inr ⟨item, raises, rfl, h⟩
    | bootStep f =>
      exact Or.inl (noNewInit_of_entries_eq (send_initial_requests_step_entries f s) e he hi)
    | reqStep w o =>
      exact Or.inl (noNewInit_of_entries_eq (handle_requests_step_entries w o s) e he hi)
    | enqueue r => exact Or.inl (noNewInit_of_entries_eq rfl e he hi)
    | buildSend mth p =>
      exact Or.inl (noNewInit_of_entries_eq (applyOp_buildSend_entries mth p s) e he hi)
    | eventsStep w c r => exact Or.inl (noNewInit_events w c r s e he hi)
  · intro s hinit
    exact ⟨(send_initial_requests_step_issuing s hinit).1,
      (send_initial_requests_step_issuing s hinit).2.1⟩

/-- Witness for C4 on a concrete bootstrap configuration. -/
theorem claim_C4_witness :
    (setAuthenticated false sampleBootState).initialized = false ∧
    (setAuthenticated true sampleBootState).initializing = true ∧
    (sampleBootState.initializing = true ∧
      (send_initial_requests_step none sampleBootState).issued =
        ((sampleBootState.initial_requests_list.filter fun e => !e.initialized).map
          fun e => e.api_method)) ∧
    ({ api_method := "private/get-account-summary", initialized := true } : BootEntry) ∈
      (applyOp (.dispatchItem sampleResponse false) sampleBootState).initial_requests_list ∧
    ((∃ e₀, e₀ ∈ sampleBootState.initial_requests_list ∧
        e₀.api_method = "private/get-account-summary" ∧ e₀.initialized = true) ∨
      (∃ item raises, Op.dispatchItem sampleResponse false = .dispatchItem item raises ∧
        OutItem.methodKey item = some "private/get-account-summary")) :=
  ⟨(claim_C4.1 sampleBootState).1,
   claim_C4.2.2.1 sampleBootState,
   ⟨rfl, (claim_C4.2.2.2 sampleBootState rfl).1⟩,
   by decide,
   claim_C4.2.1 (.dispatchItem sampleResponse false) sampleBootState
     { api_method := "private/get-account-summary", initialized := true } (by decide) rfl⟩

/-- Claim C9: a tracked entry is marked initialized only by a response
handled without an exception; when the handler raises (or is missing),
the entries are unchanged and a tracked match turns `initializing` back
on, so the bootstrap issuer re-issues that entry on a later iteration. -/
theorem claim_C9 (s : ClientState) (item : OutItem) (m : String) (raises : Bool)
    (hsub : item.subscriptionKey = none) (hmeth : item.methodKey = some m) :
    ((raises = true ∨ s.responses_handling_map.contains m = false) →
      ∃ s', dispatch_step item raises s = .ok s' ∧
        s'.initial_requests_list = s.initial_requests_list ∧
        ((s.initial_requests_list.any fun e => e.api_method == m) = true →
          s'.initializing = true)) ∧
    (raises = false → s.responses_handling_map.contains m = true →
      dispatch_step item raises s =
        .ok { s with initial_requests_list := markInitialized m s.initial_requests_list }) ∧
    (∀ e, e ∈ s.initial_requests_list → s.initializing = true → e.initialized = false →
      e.api_method ∈ (send_initial_requests_step none s).issued) := by
  refine ⟨?_, ?_, ?_⟩
  · intro hexc
    refine ⟨{ s with initializing :=
        if (s.initial_requests_list.any fun e => e.api_method == m) = true then true
        else s.initializing }, ?_, rfl, ?_⟩
    · rcases hexc with h | h
      · subst h
        simp [dispatch_step, hsub, hmeth]
      · have h' : m ∉ s.responses_handling_map := by
          intro hm
          rw [contains_of_mem hm] at h
          exact Bool.noConfusion h
        simp [dispatch_step, hsub, hmeth, h']
    · intro hany
      simp [hany]
  · intro hr hcont
    subst hr
    have h' : m ∈ s.responses_handling_map := mem_of_contains hcont
    simp [dispatch_step, hsub, hmeth, h']
  · intro e he hinit hni
    rw [(send_initial_requests_step_issuing s hinit).1]
    refine List.mem_map.mpr ⟨e, List.mem_filter.mpr ⟨he, ?_⟩, rfl⟩
    simp [hni]

/-- Witness for C9: a raising handler leaves the tracked entry
uninitialized and re-arms `initializing`; a clean handler marks it. -/
theorem claim_C9_witness :
    sampleResponse.subscriptionKey = none ∧
    sampleResponse.methodKey = some "private/get-account-summary" ∧
    (∃ s', dispatch_step sampleResponse true sampleBootState = .ok s' ∧
      s'.initial_requests_list = sampleBootState.initial_requests_list ∧
      ((sampleBootState.initial_requests_list.any
          fun e => e.api_method == "private/get-account-summary") = true →
        s'.initializing = true)) ∧
    dispatch_step sampleResponse false sampleBootState =
      .ok { sampleBootState with
            initial_requests_list :=
              markInitialized "private/get-account-summary"
                sampleBootState.initial_requests_list } :=
  ⟨rfl, rfl,
   (claim_C9 sampleBootState sampleResponse "private/get-account-summary" true rfl rfl).1
     (Or.inl rfl),
   (claim_C9 sampleBootState sampleResponse "private/get-account-summary" false rfl rfl).2.1
     rfl (by decide)⟩

end CryptoCom
